import Mathlib

/-!
Verification of the agent-collaboration platform's core: the in-memory
A2A message broker (`src/services/broker_service.py`), the Analyst agent
step (`src/services/analyst_service.py`), and the Frontend orchestration
driver loop (`src/services/frontend_service.py`).

The broker's module-level `QUEUES : Dict[str, deque]` (a `defaultdict`)
is modelled as a total function from recipient identifiers to lists of
envelopes: a `defaultdict(deque)` behaves observationally as a total map
whose unreferenced keys hold the empty queue.  Envelope payloads
(`Dict[str, Any]`) are modelled as association lists of string keys to
string values, which covers every payload the services construct.
-/


/-- The `A2AMessage` pydantic model shared by all three services:
sender, receiver, type, payload, conv_id. -/
structure A2AMessage where
  sender : String
  receiver : String
  type : String
  payload : List (String × String)
  conv_id : String
deriving DecidableEq, Repr

/-- The broker's mailbox state: one FIFO queue per recipient identifier
(the module-level `QUEUES` defaultdict of `broker_service.py`). -/
def BrokerState : Type := String → List A2AMessage

/-- The initial broker state: every mailbox empty (a fresh `defaultdict`). -/
def emptyQueues : BrokerState := fun _ => []

/-- Replace one recipient's queue, leaving every other mailbox untouched. -/
def updateQueue (st : BrokerState) (k : String) (v : List A2AMessage) : BrokerState :=
  fun a => if a = k then v else st a

/-- Response body of `POST /broker/send`:
`{"status": "enqueued", "receiver": ..., "size": ...}`. -/
structure SendResp where
  status : String
  receiver : String
  size : Nat
deriving DecidableEq, Repr

/-- Response body of `GET /broker/poll/{agent}`: either
`{"status": "empty"}` or `{"status": "ok", "message": ...}`. -/
inductive PollResp where
  | empty
  | ok (message : A2AMessage)
deriving DecidableEq, Repr

/-- Response body of `GET /broker/size/{agent}`:
`{"agent": ..., "size": ...}`. -/
structure SizeResp where
  agent : String
  size : Nat
deriving DecidableEq, Repr

/-- `broker_send` (`broker_service.py` lines 41-64): appends the message
to the receiver's queue and reports the queue size after the append. -/
def broker_send (st : BrokerState) (msg : A2AMessage) : SendResp × BrokerState :=
  let q := st msg.receiver ++ [msg]
  ({ status := "enqueued", receiver := msg.receiver, size := q.length },
   updateQueue st msg.receiver q)

/-- `broker_poll` (`broker_service.py` lines 69-84): if the agent's queue
is empty, answer `empty`; otherwise pop and return the head message. -/
def broker_poll (st : BrokerState) (agent : String) : PollResp × BrokerState :=
  match st agent with
  | [] => (.empty, st)
  | m :: rest => (.ok m, updateQueue st agent rest)

/-- `broker_size` (`broker_service.py` lines 89-96): read-only length query. -/
def broker_size (st : BrokerState) (agent : String) : SizeResp :=
  { agent := agent, size := (st agent).length }

/-- Iterated polling: the broker state after `n` successive
`broker_poll` calls for the same agent. -/
def pollN (agent : String) : Nat → BrokerState → BrokerState
  | 0, st => st
  | n + 1, st => pollN agent n (broker_poll st agent).2

/-- Sequentially send a list of messages through the broker. -/
def sendAll (st : BrokerState) : List A2AMessage → BrokerState
  | [] => st
  | m :: ms => sendAll (broker_send st m).2 ms

/-!
Analyst agent step (`analyst_service.py`).  The MCP registry fetch is
modelled as a partial map from resource ids to the stored document text
(`none` models the HTTP error `raise_for_status` propagates), and the
Groq client as an optional function from the system and user prompts to
the completion text (`none` models an unset `GROQ_API_KEY`).
-/
/-- Split a character list at every `'/'`, keeping empty components,
exactly as Python's `str.split("/")` does. -/
def splitSlash : List Char → List (List Char)
  | [] => [[]]
  | c :: cs =>
    match splitSlash cs with
    | [] => [[]]
    | h :: t => if c = '/' then [] :: h :: t else (c :: h) :: t

/-- `pointer.split("/")[-1]` from `mcp_get`: the final `/`-separated
component of a pointer such as `ctx://note/abc`. -/
def lastComponent (s : String) : String :=
  String.mk ((splitSlash s.data).getLastD [])

/-- `call_groq`: with no client configured, the canned warning string;
otherwise the external completion on the system and user prompts. -/
def call_groq (client : Option (String → String → String))
    (system user : String) : String :=
  match client with
  | none => "⚠️ GROQ_API_KEY not set — returning canned response."
  | some f => f system user

/-- The fixed system prompt of `pull_process_and_reply`. -/
def analystSystemPrompt : String :=
  "You analyze business notes, verify claims, extract KPIs, and write concise summaries."

/-- The user prompt built around the fetched document text. -/
def analystUserPrompt (docText : String) : String :=
  "\nDocument:\n\"\"\"" ++ docText ++ "\"\"\"\n\n\nTasks:\n" ++
  "1) Extract KPIs (YoY growth, drivers, risks) in bullet points.\n" ++
  "2) Write a neutral ~120-word summary for an exec note.\n" ++
  "3) Keep numeric ranges as stated (no hallucination).\n" ++
  "4) Return JSON with keys: kpis (list of bullets), summary (string).\n"

/-- Outcome of one `POST /pull_process_and_reply` call. -/
inductive StepResult where
  /-- `{"status": "no-messages"}`: the poll answered `empty`. -/
  | noMessages
  /-- `{"status": "ignored", "reason": "no pointer"}`. -/
  | ignored
  /-- `mcp_get` raised (`raise_for_status`): propagated to the caller. -/
  | fetchError (pointer : String)
  /-- `{"reply_enqueued": reply}`: the reply sent through the broker. -/
  | replied (reply : A2AMessage)
deriving DecidableEq, Repr

/-- `pull_process_and_reply` (`analyst_service.py` lines 98-159): poll
the broker for `"Analyst"`, record the message in `INBOX`, extract the
payload pointer (absent or empty-string pointers are falsy in Python and
are ignored), fetch the document, analyze it, and send a `confirm` reply
to `"Researcher"` carrying the inbound `conv_id`.  Returns the step
outcome together with the broker state and `INBOX` after the call. -/
def pull_process_and_reply (mcp : String → Option String)
    (client : Option (String → String → String))
    (st : BrokerState) (inbox : List A2AMessage) :
    StepResult × BrokerState × List A2AMessage :=
  match broker_poll st "Analyst" with
  | (.empty, st1) => (.noMessages, st1, inbox)
  | (.ok msg, st1) =>
    let inbox1 := inbox ++ [msg]
    match msg.payload.lookup "pointer" with
    | none => (.ignored, st1, inbox1)
    | some p =>
      if p = "" then (.ignored, st1, inbox1)
      else
        match mcp (lastComponent p) with
        | none => (.fetchError p, st1, inbox1)
        | some docText =>
          let analysis := call_groq client analystSystemPrompt (analystUserPrompt docText)
          let reply : A2AMessage :=
            { sender := "Analyst", receiver := "Researcher", type := "confirm",
              payload := [("analysis", analysis), ("source_pointer", p)],
              conv_id := msg.conv_id }
          (.replied reply, (broker_send st1 reply).2, inbox1)

/-- The `GET /inbox` debug endpoint: returns the `INBOX` list. -/
def inbox_endpoint (inbox : List A2AMessage) : List A2AMessage := inbox

/-- Concrete inbound envelope without a payload pointer. -/
def noPtrMsg : A2AMessage :=
  { sender := "Researcher", receiver := "Analyst", type := "inform",
    payload := [("task", "just a note")], conv_id := "c9" }

/-- A concrete inbound envelope whose sender is not `"Researcher"`. -/
def bobMsg : A2AMessage :=
  { sender := "Bob", receiver := "Analyst", type := "inform",
    payload := [("pointer", "ctx://note/abc")], conv_id := "c1" }

/-- A broker state whose Analyst mailbox holds exactly `bobMsg`. -/
def bobState : BrokerState := updateQueue emptyQueues "Analyst" [bobMsg]

/-- A concrete MCP registry holding one document under id `abc`. -/
def abcMcp : String → Option String :=
  fun rid => if rid = "abc" then some "Q2 revenue grew 8-10% YoY." else none

/-- The reply `pull_process_and_reply` sends for `bobMsg` with no Groq
client configured. -/
def bobReply : A2AMessage :=
  { sender := "Analyst", receiver := "Researcher", type := "confirm",
    payload := [("analysis", "⚠️ GROQ_API_KEY not set — returning canned response."),
                ("source_pointer", "ctx://note/abc")],
    conv_id := "c1" }

/-!
Orchestration driver (`frontend_service.py`, `run_pipeline`).  The wait
loop (lines 197-225) is modelled with an explicit integer clock in units
of the polling interval (`time.sleep(1.0)`): each non-accepting round
advances the clock by one interval, and the `while time.time() < deadline`
guard is re-checked on entry to every round.  The remote
`analyst_process_once` call is a parameter `trigger` on the broker state
(its exceptions are swallowed by the loop, so any state transformer is a
faithful round effect).
-/
/-- Terminal outcome of the driver's wait loop. -/
inductive DriveOutcome where
  /-- A polled envelope matched the exchange's `conv_id` (`reply_msg`). -/
  | accepted (reply : A2AMessage)
  /-- The deadline elapsed with `reply_msg` still `None`. -/
  | timedOut
deriving DecidableEq, Repr

/-- What the loop leaves behind for the result page: the outcome, the
`attempts` counter, the `stray_msgs` list, the broker state, and the
clock value at exit. -/
structure LoopResult where
  outcome : DriveOutcome
  attempts : Nat
  strays : List A2AMessage
  broker : BrokerState
  finish : Nat

/-- The driver's wait loop (`frontend_service.py` lines 203-225): while
the clock is before the deadline, bump `attempts`, trigger the Analyst,
poll `"Researcher"`, accept the polled envelope exactly when its
`conv_id` matches, otherwise stash it as a stray (or nothing, when the
poll was empty) and sleep one interval before re-checking. -/
def run_pipeline_loop (trigger : BrokerState → BrokerState) (deadline : Nat)
    (convId : String) (now : Nat) (st : BrokerState) (attempts : Nat)
    (strays : List A2AMessage) : LoopResult :=
  if _h : now < deadline then
    match broker_poll (trigger st) "Researcher" with
    | (.empty, st2) =>
        run_pipeline_loop trigger deadline convId (now + 1) st2 (attempts + 1) strays
    | (.ok m, st2) =>
        if m.conv_id = convId then
          { outcome := .accepted m, attempts := attempts + 1, strays := strays,
            broker := st2, finish := now }
        else
          run_pipeline_loop trigger deadline convId (now + 1) st2 (attempts + 1)
            (strays ++ [m])
  else
    { outcome := .timedOut, attempts := attempts, strays := strays,
      broker := st, finish := now }
termination_by deadline - now
decreasing_by all_goals omega

/-- A concrete reply belonging to a different conversation. -/
def strayMsg : A2AMessage :=
  { sender := "Analyst", receiver := "Researcher", type := "confirm",
    payload := [("analysis", "other analysis")], conv_id := "other" }

/-- A broker state whose Researcher mailbox holds exactly `strayMsg`. -/
def strayState : BrokerState := updateQueue emptyQueues "Researcher" [strayMsg]

lemma updateQueue_same (st : BrokerState) (k : String) (v : List A2AMessage) :
    updateQueue st k v k = v := by
  simp [updateQueue]

lemma updateQueue_other (st : BrokerState) (k a : String) (v : List A2AMessage)
    (h : a ≠ k) : updateQueue st k v a = st a := by
  simp [updateQueue, h]

lemma broker_poll_of_empty (st : BrokerState) (a : String) (h : st a = []) :
    broker_poll st a = (.empty, st) := by
  simp [broker_poll, h]

lemma broker_poll_of_cons (st : BrokerState) (a : String) (m : A2AMessage)
    (rest : List A2AMessage) (h : st a = m :: rest) :
    broker_poll st a = (.ok m, updateQueue st a rest) := by
  simp [broker_poll, h]

lemma broker_send_queue (st : BrokerState) (msg : A2AMessage) :
    (broker_send st msg).2 msg.receiver = st msg.receiver ++ [msg] := by
  simp [broker_send, updateQueue_same]

lemma broker_send_frame (st : BrokerState) (msg : A2AMessage) (a : String)
    (h : a ≠ msg.receiver) : (broker_send st msg).2 a = st a := by
  simp [broker_send, updateQueue_other _ _ _ _ h]

lemma run_pipeline_loop_of_deadline (trigger : BrokerState → BrokerState)
    (deadline : Nat) (convId : String) (now : Nat) (st : BrokerState)
    (attempts : Nat) (strays : List A2AMessage) (h : ¬ now < deadline) :
    run_pipeline_loop trigger deadline convId now st attempts strays
      = { outcome := .timedOut, attempts := attempts, strays := strays,
          broker := st, finish := now } := by
  rw [run_pipeline_loop]
  simp [h]

lemma run_pipeline_loop_of_empty (trigger : BrokerState → BrokerState)
    (deadline : Nat) (convId : String) (now : Nat) (st st2 : BrokerState)
    (attempts : Nat) (strays : List A2AMessage) (h : now < deadline)
    (hp : broker_poll (trigger st) "Researcher" = (.empty, st2)) :
    run_pipeline_loop trigger deadline convId now st attempts strays
      = run_pipeline_loop trigger deadline convId (now + 1) st2 (attempts + 1) strays := by
  rw [run_pipeline_loop]
  simp [h, hp]

lemma run_pipeline_loop_of_match (trigger : BrokerState → BrokerState)
    (deadline : Nat) (convId : String) (now : Nat) (st st2 : BrokerState)
    (attempts : Nat) (strays : List A2AMessage) (m : A2AMessage)
    (h : now < deadline)
    (hp : broker_poll (trigger st) "Researcher" = (.ok m, st2))
    (hc : m.conv_id = convId) :
    run_pipeline_loop trigger deadline convId now st attempts strays
      = { outcome := .accepted m, attempts := attempts + 1, strays := strays,
          broker := st2, finish := now } := by
  rw [run_pipeline_loop]
  simp [h, hp, hc]

lemma run_pipeline_loop_of_stray (trigger : BrokerState → BrokerState)
    (deadline : Nat) (convId : String) (now : Nat) (st st2 : BrokerState)
    (attempts : Nat) (strays : List A2AMessage) (m : A2AMessage)
    (h : now < deadline)
    (hp : broker_poll (trigger st) "Researcher" = (.ok m, st2))
    (hc : m.conv_id ≠ convId) :
    run_pipeline_loop trigger deadline convId now st attempts strays
      = run_pipeline_loop trigger deadline convId (now + 1) st2 (attempts + 1)
          (strays ++ [m]) := by
  rw [run_pipeline_loop]
  simp [h, hp, hc]

lemma loop_accepted_conv (trigger : BrokerState → BrokerState) (deadline : Nat)
    (convId : String) :
    ∀ fuel now st attempts strays m, deadline - now = fuel →
      (run_pipeline_loop trigger deadline convId now st attempts strays).outcome
        = .accepted m →
      m.conv_id = convId := by
  intro fuel
  induction fuel with
  | zero =>
      intro now st attempts strays m hf hout
      have hnd : ¬ now < deadline := by omega
      rw [run_pipeline_loop_of_deadline trigger deadline convId now st attempts
        strays hnd] at hout
      simp at hout
  | succ n ih =>
      intro now st attempts strays m hf hout
      have hlt : now < deadline := by omega
      cases hq : (trigger st) "Researcher" with
      | nil =>
          rw [run_pipeline_loop_of_empty trigger deadline convId now st _ attempts
            strays hlt (broker_poll_of_empty _ _ hq)] at hout
          exact ih (now + 1) _ _ _ m (by omega) hout
      | cons m' rest =>
          have hp := broker_poll_of_cons (trigger st) "Researcher" m' rest hq
          by_cases hc : m'.conv_id = convId
          · rw [run_pipeline_loop_of_match trigger deadline convId now st _ attempts
              strays m' hlt hp hc] at hout
            simp at hout
            rw [← hout]
            exact hc
          · rw [run_pipeline_loop_of_stray trigger deadline convId now st _ attempts
              strays m' hlt hp hc] at hout
            exact ih (now + 1) _ _ _ m (by omega) hout

lemma loop_no_match (trigger : BrokerState → BrokerState) (deadline : Nat)
    (convId : String)
    (hno : ∀ s m, m ∈ trigger s "Researcher" → m.conv_id ≠ convId) :
    ∀ fuel now st attempts strays, deadline - now = fuel → now ≤ deadline →
      (run_pipeline_loop trigger deadline convId now st attempts strays).outcome
        = .timedOut ∧
      (run_pipeline_loop trigger deadline convId now st attempts strays).finish
        = deadline ∧
      (run_pipeline_loop trigger deadline convId now st attempts strays).attempts
        = attempts + (deadline - now) ∧
      ∃ extra, (run_pipeline_loop trigger deadline convId now st attempts strays).strays
        = strays ++ extra := by
  intro fuel
  induction fuel with
  | zero =>
      intro now st attempts strays hf hle
      have hnd : ¬ now < deadline := by omega
      have hnow : now = deadline := by omega
      rw [run_pipeline_loop_of_deadline trigger deadline convId now st attempts
        strays hnd]
      exact ⟨rfl, hnow, by show attempts = attempts + (deadline - now); omega, [], by simp⟩
  | succ n ih =>
      intro now st attempts strays hf hle
      have hlt : now < deadline := by omega
      cases hq : (trigger st) "Researcher" with
      | nil =>
          rw [run_pipeline_loop_of_empty trigger deadline convId now st _ attempts
            strays hlt (broker_poll_of_empty _ _ hq)]
          obtain ⟨h1, h2, h3, extra, h4⟩ :=
            ih (now + 1) (trigger st) (attempts + 1) strays (by omega) (by omega)
          exact ⟨h1, h2, by rw [h3]; omega, extra, h4⟩
      | cons m' rest =>
          have hp := broker_poll_of_cons (trigger st) "Researcher" m' rest hq
          have hc : m'.conv_id ≠ convId :=
            hno st m' (by rw [hq]; exact List.mem_cons_self m' rest)
          rw [run_pipeline_loop_of_stray trigger deadline convId now st _ attempts
            strays m' hlt hp hc]
          obtain ⟨h1, h2, h3, extra, h4⟩ :=
            ih (now + 1) (updateQueue (trigger st) "Researcher" rest)
              (attempts + 1) (strays ++ [m']) (by omega) (by omega)
          refine ⟨h1, h2, by rw [h3]; omega, [m'] ++ extra, ?_⟩
          rw [h4, List.append_assoc]

/-- **C1.** FIFO per recipient: starting from an empty mailbox for `r`,
sending `A` then `B` to `r` and then polling `r` twice yields `A` first
and then `B`. -/
theorem broker_fifo (st : BrokerState) (r : String) (A B : A2AMessage)
    (hA : A.receiver = r) (hB : B.receiver = r) (hq : st r = []) :
    (broker_poll ((broker_send ((broker_send st A).2) B).2) r).1 = .ok A ∧
    (broker_poll (broker_poll ((broker_send ((broker_send st A).2) B).2) r).2 r).1 = .ok B := by
  have h1 : (broker_send st A).2 r = [A] := by
    rw [← hA, broker_send_queue, hA, hq]; rfl
  have h2 : ((broker_send ((broker_send st A).2) B).2) r = [A, B] := by
    rw [← hB, broker_send_queue, hB, h1]; rfl
  rw [broker_poll_of_cons _ _ _ _ h2]
  have h3 : updateQueue ((broker_send ((broker_send st A).2) B).2) r [B] r = [B] :=
    updateQueue_same _ _ _
  rw [broker_poll_of_cons _ _ _ _ h3]
  exact ⟨rfl, rfl⟩

/-- Witness for `broker_fifo` at a concrete send-send-poll-poll run. -/
theorem broker_fifo_witness :
    (broker_poll ((broker_send ((broker_send emptyQueues
        ⟨"R", "A", "inform", [("conv", "c1")], "c1"⟩).2)
        ⟨"R", "A", "inform", [("conv", "c2")], "c2"⟩).2) "A").1
      = .ok ⟨"R", "A", "inform", [("conv", "c1")], "c1"⟩ ∧
    (broker_poll (broker_poll ((broker_send ((broker_send emptyQueues
        ⟨"R", "A", "inform", [("conv", "c1")], "c1"⟩).2)
        ⟨"R", "A", "inform", [("conv", "c2")], "c2"⟩).2) "A").2 "A").1
      = .ok ⟨"R", "A", "inform", [("conv", "c2")], "c2"⟩ :=
  broker_fifo emptyQueues "A" _ _ rfl rfl rfl

/-- **C3.** Destructive poll: for a non-empty mailbox, `broker_poll`
removes and returns exactly the head envelope, the reported size drops
by exactly one, and when no other envelope was enqueued (the polled
message was the only one), an immediately following poll answers
`empty`. -/
theorem broker_destructive_poll (st : BrokerState) (r : String) (m : A2AMessage)
    (rest : List A2AMessage) (h : st r = m :: rest) :
    (broker_poll st r).1 = .ok m ∧
    (broker_size (broker_poll st r).2 r).size + 1 = (broker_size st r).size ∧
    (rest = [] → (broker_poll (broker_poll st r).2 r).1 = .empty) := by
  rw [broker_poll_of_cons _ _ _ _ h]
  refine ⟨rfl, ?_, ?_⟩
  · simp [broker_size, h, updateQueue_same]
  · intro hrest
    subst hrest
    rw [broker_poll_of_empty _ _ (updateQueue_same _ _ _)]

/-- Witness for `broker_destructive_poll` on a singleton mailbox. -/
theorem broker_destructive_poll_witness :
    (broker_poll (updateQueue emptyQueues "A"
        [⟨"R", "A", "inform", [("pointer", "p1")], "c1"⟩]) "A").1
      = .ok ⟨"R", "A", "inform", [("pointer", "p1")], "c1"⟩ ∧
    (broker_size (broker_poll (updateQueue emptyQueues "A"
        [⟨"R", "A", "inform", [("pointer", "p1")], "c1"⟩]) "A").2 "A").size + 1
      = (broker_size (updateQueue emptyQueues "A"
        [⟨"R", "A", "inform", [("pointer", "p1")], "c1"⟩]) "A").size ∧
    ([] = ([] : List A2AMessage) →
      (broker_poll (broker_poll (updateQueue emptyQueues "A"
        [⟨"R", "A", "inform", [("pointer", "p1")], "c1"⟩]) "A").2 "A").1 = .empty) :=
  broker_destructive_poll _ "A" _ [] (updateQueue_same _ _ _)

/-- **C4.** Idempotent empty poll: for any agent whose mailbox is empty
(unknown identifiers included, since every identifier maps to a queue),
any number of polls returns `empty` every time and the broker state is
never changed, and `broker_size` reports zero rather than an error. -/
theorem broker_empty_poll_idempotent (st : BrokerState) (a : String)
    (h : st a = []) (n : Nat) :
    pollN a n st = st ∧ (broker_poll (pollN a n st) a).1 = .empty ∧
    broker_size st a = { agent := a, size := 0 } := by
  have hstep : broker_poll st a = (.empty, st) := broker_poll_of_empty st a h
  have hn : ∀ k, pollN a k st = st := by
    intro k
    induction k with
    | zero => rfl
    | succ k ih =>
        show pollN a k (broker_poll st a).2 = st
        rw [hstep]
        exact ih
  refine ⟨hn n, ?_, ?_⟩
  · rw [hn n, hstep]
  · simp [broker_size, h]

/-- Witness for `broker_empty_poll_idempotent`: five polls of a never-
referenced identifier on the fresh broker. -/
theorem broker_empty_poll_idempotent_witness :
    pollN "Ghost" 5 emptyQueues = emptyQueues ∧
    (broker_poll (pollN "Ghost" 5 emptyQueues) "Ghost").1 = .empty ∧
    broker_size emptyQueues "Ghost" = { agent := "Ghost", size := 0 } :=
  broker_empty_poll_idempotent emptyQueues "Ghost" rfl 5

/-- **C7.** `broker_send` appends the envelope to the receiver's mailbox
and answers `{status := "enqueued", receiver, size}` where the reported
size is the receiver's queue length after the append, i.e. the length
before the send plus one. -/
theorem broker_send_enqueues (st : BrokerState) (msg : A2AMessage) :
    (broker_send st msg).1
      = { status := "enqueued", receiver := msg.receiver,
          size := (broker_size st msg.receiver).size + 1 } ∧
    (broker_send st msg).2 msg.receiver = st msg.receiver ++ [msg] := by
  constructor
  · simp [broker_send, broker_size]
  · exact broker_send_queue st msg

/-- **C9.** Isolation: sending any number of envelopes addressed to `X`
leaves a distinct recipient `Y`'s mailbox (its queue contents, hence its
size and poll order) exactly as before. -/
theorem broker_isolation (st : BrokerState) (msgs : List A2AMessage)
    (X Y : String) (hXY : X ≠ Y) (hrecv : ∀ m ∈ msgs, m.receiver = X) :
    sendAll st msgs Y = st Y ∧
    broker_size (sendAll st msgs) Y = broker_size st Y := by
  have key : ∀ (l : List A2AMessage) (s : BrokerState),
      (∀ m ∈ l, m.receiver = X) → sendAll s l Y = s Y := by
    intro l
    induction l with
    | nil => intro s _; rfl
    | cons m ms ih =>
        intro s hl
        show sendAll (broker_send s m).2 ms Y = s Y
        rw [ih _ (fun x hx => hl x (List.mem_cons_of_mem m hx))]
        have hmY : Y ≠ m.receiver := by
          rw [hl m (List.mem_cons_self m ms)]
          exact fun hc => hXY hc.symm
        exact broker_send_frame s m Y hmY
  have h1 := key msgs st hrecv
  exact ⟨h1, by simp [broker_size, h1]⟩

/-- Witness for `broker_isolation`: two sends to `"A"` leave `"B"`'s
mailbox untouched. -/
theorem broker_isolation_witness :
    sendAll emptyQueues
        [⟨"R", "A", "inform", [], "c1"⟩, ⟨"R", "A", "inform", [], "c2"⟩] "B"
      = emptyQueues "B" ∧
    broker_size (sendAll emptyQueues
        [⟨"R", "A", "inform", [], "c1"⟩, ⟨"R", "A", "inform", [], "c2"⟩]) "B"
      = broker_size emptyQueues "B" :=
  broker_isolation emptyQueues _ "A" "B" (by decide)
    (by intro m hm; simp at hm; rcases hm with h | h <;> simp [h])

/-- **C8.** No-pointer envelopes: when the head envelope of the
Analyst's mailbox has no `pointer` key in its payload, the step reports
`ignored` and sends no reply, yet the envelope has been destructively
consumed: the resulting broker state is exactly the input state with the
polled envelope removed from the Analyst queue (so no queue gains a
message and the envelope is not requeued). -/
theorem analyst_ignores_no_pointer (mcp : String → Option String)
    (client : Option (String → String → String)) (st : BrokerState)
    (inbox : List A2AMessage) (msg : A2AMessage) (rest : List A2AMessage)
    (hq : st "Analyst" = msg :: rest)
    (hp : msg.payload.lookup "pointer" = none) :
    pull_process_and_reply mcp client st inbox
      = (.ignored, updateQueue st "Analyst" rest, inbox ++ [msg]) := by
  have hpoll := broker_poll_of_cons st "Analyst" msg rest hq
  simp [pull_process_and_reply, hpoll, hp]

/-- Witness for `analyst_ignores_no_pointer` on a one-message mailbox. -/
theorem analyst_ignores_no_pointer_witness :
    pull_process_and_reply (fun _ => none) none
        (updateQueue emptyQueues "Analyst" [noPtrMsg]) []
      = (.ignored, updateQueue (updateQueue emptyQueues "Analyst" [noPtrMsg]) "Analyst" [],
         [] ++ [noPtrMsg]) :=
  analyst_ignores_no_pointer (fun _ => none) none _ [] noPtrMsg []
    (updateQueue_same _ _ _) rfl

/-- **C10.** Every successfully polled envelope is appended to `INBOX`
before the pointer check: whatever the step outcome (ignored, fetch
failure, or reply), the resulting `INBOX` is the old one with the polled
envelope appended, and the `GET /inbox` endpoint exposes it. -/
theorem analyst_inbox_records_poll (mcp : String → Option String)
    (client : Option (String → String → String)) (st : BrokerState)
    (inbox : List A2AMessage) (msg : A2AMessage) (rest : List A2AMessage)
    (hq : st "Analyst" = msg :: rest) :
    (pull_process_and_reply mcp client st inbox).2.2 = inbox ++ [msg] ∧
    inbox_endpoint (pull_process_and_reply mcp client st inbox).2.2 = inbox ++ [msg] ∧
    msg ∈ (pull_process_and_reply mcp client st inbox).2.2 := by
  have hpoll := broker_poll_of_cons st "Analyst" msg rest hq
  have key : (pull_process_and_reply mcp client st inbox).2.2 = inbox ++ [msg] := by
    rw [pull_process_and_reply, hpoll]
    cases hlp : msg.payload.lookup "pointer" with
    | none => simp [hlp]
    | some p =>
        by_cases hp0 : p = ""
        · simp [hlp, hp0]
        · cases hm : mcp (lastComponent p) with
          | none => simp [hlp, hp0, hm]
          | some docText => simp [hlp, hp0, hm]
  refine ⟨key, key, ?_⟩
  rw [key]
  simp

/-- **C6 counterexample.** The reply's receiver is the hard-coded
identifier `"Researcher"`, not the inbound envelope's sender: for an
inbound envelope sent by `"Bob"`, the step replies to `"Researcher"`,
and the reply payload keys are `analysis` and `source_pointer` (there is
no `result` key). -/
theorem analyst_reply_receiver_cex :
    (pull_process_and_reply abcMcp none bobState []).1 = .replied bobReply ∧
    bobReply.receiver ≠ bobMsg.sender ∧
    bobReply.payload.lookup "result" = none ∧
    bobReply.payload.lookup "analysis"
      = some "⚠️ GROQ_API_KEY not set — returning canned response." := by
  refine ⟨?_, by decide, by decide, by decide⟩
  rfl

/-- **C6 (amended).** When the Analyst step processes an inbound
envelope to completion, the reply it sends has `sender = "Analyst"`,
`receiver` the fixed identifier `"Researcher"` (the deployed driver's
identity — not read from the inbound envelope), `type = "confirm"`,
payload holding the analysis result under key `analysis` together with
`source_pointer`, and `conv_id` equal to the inbound envelope's
`conv_id` unchanged. -/
theorem analyst_reply_shape (mcp : String → Option String)
    (client : Option (String → String → String)) (st : BrokerState)
    (inbox : List A2AMessage) (msg : A2AMessage) (rest : List A2AMessage)
    (p docText : String)
    (hq : st "Analyst" = msg :: rest)
    (hp : msg.payload.lookup "pointer" = some p) (hp0 : p ≠ "")
    (hm : mcp (lastComponent p) = some docText) :
    (pull_process_and_reply mcp client st inbox).1 = .replied
      { sender := "Analyst", receiver := "Researcher", type := "confirm",
        payload := [("analysis", call_groq client analystSystemPrompt (analystUserPrompt docText)),
                    ("source_pointer", p)],
        conv_id := msg.conv_id } := by
  have hpoll := broker_poll_of_cons st "Analyst" msg rest hq
  rw [pull_process_and_reply, hpoll]
  simp [hp, hp0, hm]

/-- Witness for `analyst_reply_shape` on the concrete `bobMsg` run. -/
theorem analyst_reply_shape_witness :
    bobState "Analyst" = bobMsg :: [] ∧
    bobMsg.payload.lookup "pointer" = some "ctx://note/abc" ∧
    "ctx://note/abc" ≠ "" ∧
    abcMcp (lastComponent "ctx://note/abc") = some "Q2 revenue grew 8-10% YoY." ∧
    (pull_process_and_reply abcMcp none bobState []).1 = .replied
      { sender := "Analyst", receiver := "Researcher", type := "confirm",
        payload := [("analysis",
            call_groq none analystSystemPrompt (analystUserPrompt "Q2 revenue grew 8-10% YoY.")),
            ("source_pointer", "ctx://note/abc")],
        conv_id := bobMsg.conv_id } :=
  ⟨rfl, rfl, by decide, rfl,
   analyst_reply_shape abcMcp none bobState [] bobMsg [] "ctx://note/abc"
     "Q2 revenue grew 8-10% YoY." rfl rfl (by decide) rfl⟩

/-- **C2.** Correlation: (1) a reply produced by `pull_process_and_reply`
for a consumed request carries the request's `conv_id`; (2) the driver
loop only ever accepts an envelope whose `conv_id` is the exchange's
own; (3) in any round before the deadline that polls an envelope, the
loop accepts it exactly when its `conv_id` matches, and otherwise
appends it to the stray list and continues (it is never discarded). -/
theorem driver_correlation :
    (∀ (mcp : String → Option String) (client : Option (String → String → String))
       (st : BrokerState) (inbox : List A2AMessage) (msg : A2AMessage)
       (rest : List A2AMessage) (r : A2AMessage) (st' : BrokerState)
       (inbox' : List A2AMessage),
       st "Analyst" = msg :: rest →
       pull_process_and_reply mcp client st inbox = (.replied r, st', inbox') →
       r.conv_id = msg.conv_id) ∧
    (∀ (trigger : BrokerState → BrokerState) (deadline : Nat) (convId : String)
       (now : Nat) (st : BrokerState) (attempts : Nat)
       (strays : List A2AMessage) (m : A2AMessage),
       (run_pipeline_loop trigger deadline convId now st attempts strays).outcome
         = .accepted m →
       m.conv_id = convId) ∧
    (∀ (trigger : BrokerState → BrokerState) (deadline : Nat) (convId : String)
       (now : Nat) (st st2 : BrokerState) (attempts : Nat)
       (strays : List A2AMessage) (m : A2AMessage),
       now < deadline →
       broker_poll (trigger st) "Researcher" = (.ok m, st2) →
       (m.conv_id = convId →
         run_pipeline_loop trigger deadline convId now st attempts strays
           = { outcome := .accepted m, attempts := attempts + 1, strays := strays,
               broker := st2, finish := now }) ∧
       (m.conv_id ≠ convId →
         run_pipeline_loop trigger deadline convId now st attempts strays
           = run_pipeline_loop trigger deadline convId (now + 1) st2 (attempts + 1)
               (strays ++ [m]))) := by
  refine ⟨?_, ?_, ?_⟩
  · intro mcp client st inbox msg rest r st' inbox' hq heq
    have hpoll := broker_poll_of_cons st "Analyst" msg rest hq
    rw [pull_process_and_reply, hpoll] at heq
    cases hlp : msg.payload.lookup "pointer" with
    | none => simp [hlp] at heq
    | some p =>
        by_cases hp0 : p = ""
        · simp [hlp, hp0] at heq
        · cases hm : mcp (lastComponent p) with
          | none => simp [hlp, hp0, hm] at heq
          | some docText =>
              simp [hlp, hp0, hm] at heq
              rw [← heq.1]
  · intro trigger deadline convId now st attempts strays m hout
    exact loop_accepted_conv trigger deadline convId (deadline - now) now st
      attempts strays m rfl hout
  · intro trigger deadline convId now st st2 attempts strays m hlt hp
    exact ⟨fun hc => run_pipeline_loop_of_match trigger deadline convId now st st2
        attempts strays m hlt hp hc,
      fun hc => run_pipeline_loop_of_stray trigger deadline convId now st st2
        attempts strays m hlt hp hc⟩

/-- **C5.** Deadline: if no envelope carrying the exchange's `conv_id`
ever appears in the driver's mailbox, the wait loop terminates in the
`timedOut` outcome no later than one polling interval past the deadline
(the clock at exit is in fact exactly the deadline, as each round
advances the clock by one interval and the guard is re-checked on entry
to every round), and the timed-out result still carries the full
attempts count and every stray collected during the wait. -/
theorem driver_timeout (trigger : BrokerState → BrokerState) (deadline : Nat)
    (convId : String) (now : Nat) (st : BrokerState) (attempts : Nat)
    (strays : List A2AMessage) (hle : now ≤ deadline)
    (hno : ∀ s m, m ∈ trigger s "Researcher" → m.conv_id ≠ convId) :
    (run_pipeline_loop trigger deadline convId now st attempts strays).outcome
      = .timedOut ∧
    (run_pipeline_loop trigger deadline convId now st attempts strays).finish
      ≤ deadline + 1 ∧
    (run_pipeline_loop trigger deadline convId now st attempts strays).attempts
      = attempts + (deadline - now) ∧
    ∃ extra, (run_pipeline_loop trigger deadline convId now st attempts strays).strays
      = strays ++ extra := by
  obtain ⟨h1, h2, h3, extra, h4⟩ :=
    loop_no_match trigger deadline convId hno (deadline - now) now st attempts
      strays rfl hle
  exact ⟨h1, by omega, h3, extra, h4⟩

/-- Witness for `driver_timeout`: a trigger that never produces any
message for the Researcher mailbox, deadline 3. -/
theorem driver_timeout_witness :
    (run_pipeline_loop (fun _ => emptyQueues) 3 "c3" 0 emptyQueues 0 []).outcome
      = .timedOut ∧
    (run_pipeline_loop (fun _ => emptyQueues) 3 "c3" 0 emptyQueues 0 []).finish
      ≤ 3 + 1 ∧
    (run_pipeline_loop (fun _ => emptyQueues) 3 "c3" 0 emptyQueues 0 []).attempts
      = 0 + (3 - 0) ∧
    ∃ extra, (run_pipeline_loop (fun _ => emptyQueues) 3 "c3" 0 emptyQueues 0 []).strays
      = [] ++ extra :=
  driver_timeout (fun _ => emptyQueues) 3 "c3" 0 emptyQueues 0 []
    (by omega)
    (by intro s m hm; simp [emptyQueues] at hm)

/-- Witness for `driver_correlation`: the concrete `bobMsg` reply keeps
its `conv_id`, and a concrete round that polls a non-matching envelope
stashes it as a stray and continues. -/
theorem driver_correlation_witness :
    bobReply.conv_id = bobMsg.conv_id ∧
    run_pipeline_loop (fun s => s) 3 "c3" 0 strayState 0 []
      = run_pipeline_loop (fun s => s) 3 "c3" 1 (updateQueue strayState "Researcher" []) 1
          ([] ++ [strayMsg]) :=
  ⟨driver_correlation.1 abcMcp none bobState [] bobMsg [] bobReply
      (broker_send (updateQueue bobState "Analyst" []) bobReply).2 [bobMsg] rfl rfl,
   (driver_correlation.2.2 (fun s => s) 3 "c3" 0 strayState
      (updateQueue strayState "Researcher" []) 0 [] strayMsg (by omega)
      (broker_poll_of_cons strayState "Researcher" strayMsg [] (updateQueue_same _ _ _))).2
      (by decide)⟩

/-- Witness for `analyst_inbox_records_poll` on a concrete ignored
envelope. -/
theorem analyst_inbox_records_poll_witness :
    (pull_process_and_reply (fun _ => none) none
        (updateQueue emptyQueues "Analyst" [noPtrMsg]) []).2.2 = [] ++ [noPtrMsg] ∧
    inbox_endpoint (pull_process_and_reply (fun _ => none) none
        (updateQueue emptyQueues "Analyst" [noPtrMsg]) []).2.2 = [] ++ [noPtrMsg] ∧
    noPtrMsg ∈ (pull_process_and_reply (fun _ => none) none
        (updateQueue emptyQueues "Analyst" [noPtrMsg]) []).2.2 :=
  analyst_inbox_records_poll (fun _ => none) none _ [] noPtrMsg []
    (updateQueue_same _ _ _)
